import Mathlib

/-!
Shallow embedding of the conversational orchestration engine of the
noga-whatsapp-assistant repository: the Gemini conversation engine
(processMessage, the bounded tool-calling loop, history building), the
WhatsApp message router (per-sender single-flight routing, keyword
shortcuts, commands), the scheduler trigger, the keyword lookup of the
database layer, and the Home-Assistant entity recognition helper.

Conventions: JavaScript strings are Lean `String`s; `text.includes(pat)`
is `strIncludes`; `text.toLowerCase()` is `jsToLower` (ASCII case folding;
the repository's data is Hebrew/ASCII, where the two notions agree);
the SQLite chat_context table is an append-only list of rows; JS `Map`s
keyed by sender are association lists; awaited network calls (the model,
tool handlers) are explicit functional parameters; a JS exception is the
`Except.error` case carrying `err.message`.
-/

deriving instance DecidableEq for Except

namespace Noga

/-- Character-list prefix test, used to implement JS `String.includes`. -/
def charsPrefixOf : List Char → List Char → Bool
  | [], _ => true
  | _ :: _, [] => false
  | a :: as, b :: bs => a = b && charsPrefixOf as bs

/-- Character-list infix test, used to implement JS `String.includes`. -/
def charsInfixOf (pat : List Char) : List Char → Bool
  | [] => charsPrefixOf pat []
  | a :: t => charsPrefixOf pat (a :: t) || charsInfixOf pat t

/-- JS `s.includes(pat)`: `pat` occurs contiguously in `s`. -/
def strIncludes (s pat : String) : Bool :=
  charsInfixOf pat.data s.data

/-- JS `s.toLowerCase()` (ASCII folding; Hebrew letters are caseless, so the
repository's strings behave identically). -/
def jsToLower (s : String) : String :=
  String.mk (s.data.map Char.toLower)

/-- JS `s.trim()`: whitespace stripped from both ends. -/
def jsTrim (s : String) : String :=
  String.mk (((s.data.dropWhile Char.isWhitespace).reverse.dropWhile Char.isWhitespace).reverse)

/-- JS `s.split(',')` on the character list. -/
def splitOnComma : List Char → List (List Char)
  | [] => [[]]
  | c :: t =>
    if c = ',' then [] :: splitOnComma t
    else
      match splitOnComma t with
      | [] => [[c]]
      | h :: r => (c :: h) :: r

/-- JS `s.split(',')`. -/
def jsSplitComma (s : String) : List String :=
  (splitOnComma s.data).map String.mk

/-- Role of a Gemini history entry (`'user'` or `'model'`). -/
inductive Role where
  | user
  | model
deriving DecidableEq

/-- One entry of the history array handed to `startChat` (`{role, parts:[{text}]}`). -/
structure HistEntry where
  role : Role
  text : String
deriving DecidableEq

/-- A row as returned by `db.getChatHistory` (`{role, content}`). -/
structure DbMsg where
  role : String
  content : String
deriving DecidableEq

/-- A persisted row of the `chat_context` table. -/
structure ChatRow where
  userId : String
  role : String
  content : String
deriving DecidableEq

/-- A row of the `keywords` table (`keyword, response, type, enabled`;
the JS column `type` is named `kind` here). -/
structure Keyword where
  keyword : String
  response : String
  kind : String
  enabled : Bool
deriving DecidableEq

/-- The conversation store: chat rows in insertion order plus keyword rules. -/
structure Db where
  chat : List ChatRow
  keywords : List Keyword
deriving DecidableEq

/-- DatabaseManager.addChatMessage: INSERT INTO chat_context (append one row). -/
def addChatMessage (db : Db) (userId role content : String) : Db :=
  { db with chat := db.chat ++ [{ userId := userId, role := role, content := content }] }

/-- DatabaseManager.getChatHistory: the user's rows ORDER BY created_at DESC
LIMIT `limit`, then reversed, i.e. the chronologically last `limit` rows. -/
def getChatHistory (db : Db) (userId : String) (limit : Nat) : List DbMsg :=
  let rows := db.chat.filter (fun r => r.userId == userId)
  (rows.drop (rows.length - limit)).map (fun r => { role := r.role, content := r.content })

/-- DatabaseManager.clearChatHistory: DELETE FROM chat_context WHERE user_id = ?. -/
def clearChatHistory (db : Db) (userId : String) : Db :=
  { db with chat := db.chat.filter (fun r => r.userId != userId) }

/-- DatabaseManager.getKeywordByText: scan the enabled keyword rows in table
order; each `keyword` column is split on commas, each variant trimmed, and the
first row one of whose variants equals (`===`, case-sensitively) the trimmed
input is returned. -/
def getKeywordByText (db : Db) (text : String) : Option Keyword :=
  let trimmedText := jsTrim text
  (db.keywords.filter (fun kw => kw.enabled)).find?
    (fun kw => ((jsSplitComma kw.keyword).map (fun v => jsTrim v)).any (fun v => v == trimmedText))

/-- GeminiManager._buildHistory, step 1: `{role: msg.role === 'model' ? 'model'
: 'user', parts:[{text: msg.content}]}`. -/
def toGeminiEntry (m : DbMsg) : HistEntry :=
  { role := if m.role == "model" then Role.model else Role.user, text := m.content }

/-- GeminiManager._buildHistory, step 2: shift off leading 'model' entries. -/
def stripLeadingModel (l : List HistEntry) : List HistEntry :=
  l.dropWhile (fun e => e.role == Role.model)

/-- One pass of GeminiManager._buildHistory's cleanup loop body: push `msg`
onto `cleaned` if it is empty or its last entry has a different role,
otherwise merge `msg` into the last entry with a newline separator. -/
def pushOrMerge : List HistEntry → HistEntry → List HistEntry
  | [], msg => [msg]
  | [last], msg =>
    if last.role ≠ msg.role then [last, msg]
    else [{ role := last.role, text := last.text ++ "\n" ++ msg.text }]
  | a :: b :: t, msg => a :: pushOrMerge (b :: t) msg

/-- GeminiManager._buildHistory, step 3: the cleanup loop over all entries. -/
def cleanedHistory (history : List HistEntry) : List HistEntry :=
  history.foldl pushOrMerge []

/-- GeminiManager._buildHistory as a pure function of the rows the database
returned for the user. -/
def buildHistoryCore (messages : List DbMsg) : List HistEntry :=
  cleanedHistory (stripLeadingModel (messages.map toGeminiEntry))

/-- GeminiManager._buildHistory: last 20 persisted rows, role-converted,
leading model entries stripped, consecutive same-role entries merged. -/
def buildHistory (db : Db) (userId : String) : List HistEntry :=
  buildHistoryCore (getChatHistory db userId 20)

/-- GeminiManager._isDeviceRelatedMessage's fixed `devicePatterns` list,
reproduced byte-for-byte from the source file (the Hebrew entries there are
encoding-corrupted; three of them are literally the empty string). -/
def devicePatterns : List String :=
  ["转拽",
   "转",
   "拽",
   "",
   "拽",
   "转",
   "专",
   "专",
   "专",
   "转专",
   "专",
   "",
   "",
   "驻专专",
   "转",
   "砖拽注",
   " 爪",
   " 拽",
   " ",
   " 驻注",
   "拽",
   "转拽",
   "拽",
   "转拽",
   "turn on",
   "turn off",
   "switch on",
   "switch off",
   "toggle",
   "light",
   "lamp",
   "switch",
   "status",
   "state",
   "check",
   "light.",
   "switch.",
   "sensor.",
   "climate.",
   "tz3000",
   "ts0004"]

/-- GeminiManager._isDeviceRelatedMessage: the lower-cased text contains some
pattern of `devicePatterns`. -/
def isDeviceRelatedMessage (text : String) : Bool :=
  let lowerText := jsToLower text
  devicePatterns.any (fun pattern => strIncludes lowerText pattern)

/-- One tool-call request found in a model response (`{name, args}`; the
arguments object is opaque here). -/
structure FunctionCall where
  name : String
  args : String
deriving DecidableEq

/-- One Gemini response: its final text and its list of tool-call requests
(the JS `functionCalls()` accessor; a null/absent list is `[]`). -/
structure ModelResponse where
  text : String
  functionCalls : List FunctionCall
deriving DecidableEq

/-- Behaviour of one registered tool handler on given arguments: it either
returns a value or throws an error with a message. -/
inductive HandlerBehavior where
  | returns (v : String)
  | throws (msg : String)
deriving DecidableEq

/-- The value placed in a `functionResponse` part: either the handler's
result or the structured error object `{error: msg}`. -/
inductive FnResult where
  | value (v : String)
  | errorObj (msg : String)
deriving DecidableEq

/-- One `{functionResponse: {name, response}}` part sent back to the model. -/
structure Feedback where
  name : String
  response : FnResult
deriving DecidableEq

/-- The tool registry `this.toolHandlers`: name to handler, if registered. -/
def Handlers := String → Option (String → HandlerBehavior)

/-- The environment's answers to the `chat.sendMessage(functionResponses)`
calls inside the loop: iteration index and the feedback batch determine the
next response, or a thrown error. -/
def LoopModel := Nat → List Feedback → Except String ModelResponse

/-- Body of the per-call try/catch in _handleFunctionCalls: a registered
handler's thrown error becomes `{error: err.message}`, an unknown name
becomes `{error: "Unknown function: name"}`. -/
def executeCall (handlers : Handlers) (fc : FunctionCall) : FnResult :=
  match handlers fc.name with
  | some h =>
    match h fc.args with
    | HandlerBehavior.returns v => FnResult.value v
    | HandlerBehavior.throws m => FnResult.errorObj m
  | none => FnResult.errorObj ("Unknown function: " ++ fc.name)

/-- The loop cap `maxIterations` of GeminiManager._handleFunctionCalls. -/
def maxIterations : Nat := 5

/-- The `while (iterations < maxIterations)` loop of _handleFunctionCalls,
with `fuel = maxIterations - iterations`. Besides the JS return value it
records the batches of tool results sent back to the model, one list per
iteration, so theorems can speak about what was fed back. -/
def handleFunctionCallsGo (handlers : Handlers) (loopModel : LoopModel) :
    ModelResponse → Nat → Nat → Except String ModelResponse × List (List Feedback)
  | current, _, 0 => (Except.ok current, [])
  | current, iterations, fuel + 1 =>
    if current.functionCalls.isEmpty then (Except.ok current, [])
    else
      let feedback := current.functionCalls.map
        (fun fc => { name := fc.name, response := executeCall handlers fc })
      match loopModel iterations feedback with
      | Except.error e => (Except.error e, [feedback])
      | Except.ok next =>
        let rest := handleFunctionCallsGo handlers loopModel next (iterations + 1) fuel
        (rest.1, feedback :: rest.2)

/-- GeminiManager._handleFunctionCalls: run the loop from iteration 0. -/
def handleFunctionCalls (handlers : Handlers) (loopModel : LoopModel)
    (response : ModelResponse) : Except String ModelResponse × List (List Feedback) :=
  handleFunctionCallsGo handlers loopModel response 0 maxIterations

/-- The generation temperature 0.1 of processMessage's `startChat`. -/
def lowTemperature : ℚ := 1 / 10

/-- The generation temperature 0.7 of processVoiceMessage's `startChat`. -/
def highTemperature : ℚ := 7 / 10

/-- The record of one `startChat`+`sendMessage` invocation of the model:
the history array it was opened with, the configured temperature, and the
message text sent. -/
structure GenCall where
  history : List HistEntry
  temperature : ℚ
  message : String
deriving DecidableEq

/-- Result of one engine call: the returned text or thrown error, the store
afterwards, the model invocation made, and the tool-result batches sent. -/
structure ProcResult where
  result : Except String String
  db : Db
  call : GenCall
  trace : List (List Feedback)

/-- GeminiManager.processMessage: classify the text, build the history
(forced empty when device-related and `keepHistory` is not set), open the
chat at temperature 0.1, persist the user turn, send the text (which may
throw), run the tool loop (which may throw), persist and return the final
text. Errors are logged and rethrown. -/
def processMessage (handlers : Handlers) (db : Db) (userId text : String)
    (keepHistory : Bool) (firstResponse : Except String ModelResponse)
    (loopModel : LoopModel) : ProcResult :=
  let isDeviceRelated := isDeviceRelatedMessage text
  let history := if keepHistory || !isDeviceRelated then buildHistory db userId else []
  let call : GenCall := { history := history, temperature := lowTemperature, message := text }
  let db1 := addChatMessage db userId "user" text
  let outcome : Except String String × Db × List (List Feedback) :=
    match firstResponse with
    | Except.error e => (Except.error e, db1, [])
    | Except.ok response =>
      let p := handleFunctionCalls handlers loopModel response
      match p.1 with
      | Except.error e => (Except.error e, db1, p.2)
      | Except.ok finalResponse =>
        (Except.ok finalResponse.text,
         addChatMessage db1 userId "model" finalResponse.text, p.2)
  { result := outcome.1, db := outcome.2.1, call := call, trace := outcome.2.2 }

/-- The fixed instruction text sent along with the audio part in
processVoiceMessage. -/
def voiceInstruction : String :=
  "Please listen to this voice message and respond appropriately. If it contains a request or question, handle it. If you need to use any tools/functions, please do so."

/-- GeminiManager.processVoiceMessage: always builds the history (no
device-related suppression), opens the chat at temperature 0.7, persists a
'[Voice Message]' user turn, sends the audio, runs the tool loop, persists
and returns the final text. -/
def processVoiceMessage (handlers : Handlers) (db : Db) (userId : String)
    (firstResponse : Except String ModelResponse) (loopModel : LoopModel) : ProcResult :=
  let history := buildHistory db userId
  let call : GenCall := { history := history, temperature := highTemperature,
                          message := voiceInstruction }
  let db1 := addChatMessage db userId "user" "[Voice Message]"
  let outcome : Except String String × Db × List (List Feedback) :=
    match firstResponse with
    | Except.error e => (Except.error e, db1, [])
    | Except.ok response =>
      let p := handleFunctionCalls handlers loopModel response
      match p.1 with
      | Except.error e => (Except.error e, db1, p.2)
      | Except.ok finalResponse =>
        (Except.ok finalResponse.text,
         addChatMessage db1 userId "model" finalResponse.text, p.2)
  { result := outcome.1, db := outcome.2.1, call := call, trace := outcome.2.2 }

/-- An inbound WhatsApp message as the router destructures it
(`{from, chat, body, type, hasMedia, media}`; `media` is `(data, mimetype)`). -/
structure Message where
  sender : String
  chat : String
  body : String
  kind : String
  hasMedia : Bool
  media : Option (String × String)

/-- The external collaborators of one routing pass: the system-status text
(built from live manager state), the model's answer to the initial
`sendMessage` of the text and voice paths, the in-loop model, and the tool
registry. -/
structure Env where
  statusText : String
  firstResponse : Except String ModelResponse
  voiceFirstResponse : Except String ModelResponse
  loopModel : LoopModel
  handlers : Handlers

/-- What one dispatch branch of routeMessage produced: the store afterwards,
the acknowledgement reactions sent, the engine invocations made, and the
response (`Except.ok none` when the branch returns nothing to send). -/
structure Dispatch where
  db : Db
  reactions : List String
  calls : List GenCall
  outcome : Except String (Option String)

/-- MessageRouter.getHelpText's fixed reply. -/
def helpText : String :=
  "שלום! אני נוגה 👋\n        \nאני יכולה לעזור לך עם:\n\n📅 *יומן* - \"מה יש לי היום?\", \"הוסיפי פגישה מחר ב-10\"\n🛒 *קניות* - \"תוסיפי חלב לרשימה\", \"מה ברשימת הקניות?\"\n🏠 *בית חכם* - \"תדליקי אור בסלון\", \"מה הטמפרטורה?\"\n\n*פקודות מיוחדות:*\n/status - סטטוס המערכת\n/clear - נקה היסטוריית שיחה\n\nאפשר גם לשלוח הודעה קולית! 🎤"

/-- The /clear confirmation reply. -/
def clearReply : String := "היסטוריית השיחה נמחקה 🗑️"

/-- The fixed user-facing message for a quota/rate-limit failure. -/
def quotaErrorMessage : String :=
  "המכסה היומית של הבינה המלאכותית נגמרה 😅 אשתף פעולה שוב בקרוב!"

/-- The fixed user-facing message for any other failure. -/
def genericErrorMessage : String := "סליחה, נתקלתי בבעיה 😅 אנא נסו שוב."

/-- routeMessage's error classification: `err.message && (err.message
.includes('429') || err.message.toLowerCase().includes('quota'))`. -/
def isQuotaError (e : String) : Bool :=
  (e != "") && (strIncludes e "429" || strIncludes (jsToLower e) "quota")

/-- MessageRouter.handleCommand: /help, /status and /clear (with Hebrew
aliases) answer directly; an unknown command is passed to the engine. -/
def handleCommand (env : Env) (db : Db) (msg : Message) : Dispatch :=
  let command := jsTrim (jsToLower msg.body)
  if command == "/help" || command == "/עזרה" then
    { db := db, reactions := [], calls := [], outcome := Except.ok (some helpText) }
  else if command == "/status" || command == "/סטטוס" then
    { db := db, reactions := [], calls := [], outcome := Except.ok (some env.statusText) }
  else if command == "/clear" || command == "/נקה" then
    { db := clearChatHistory db msg.sender, reactions := [], calls := [],
      outcome := Except.ok (some clearReply) }
  else
    let r := processMessage env.handlers db msg.sender msg.body false
      env.firstResponse env.loopModel
    { db := r.db, reactions := [], calls := [r.call], outcome := r.result.map some }

/-- MessageRouter.handleTextMessage: an enabled keyword rule matching the
trimmed body either answers statically (type 'static') or augments the
message for the engine with history kept (type 'ai'); otherwise the body
goes to the engine. A 🤖 or ⚡ reaction is sent first. -/
def handleTextMessage (env : Env) (db : Db) (msg : Message) : Dispatch :=
  match getKeywordByText db (jsTrim msg.body) with
  | some keywordMatch =>
    if keywordMatch.kind == "ai" then
      let augmentedMessage :=
        "[Custom Instructions: " ++ keywordMatch.response ++ "]\n\nUser message: " ++ msg.body
      let r := processMessage env.handlers db msg.sender augmentedMessage true
        env.firstResponse env.loopModel
      { db := r.db, reactions := ["🤖"], calls := [r.call], outcome := r.result.map some }
    else
      { db := db, reactions := ["⚡"], calls := [],
        outcome := Except.ok (some keywordMatch.response) }
  | none =>
    let r := processMessage env.handlers db msg.sender msg.body false
      env.firstResponse env.loopModel
    { db := r.db, reactions := ["🤖"], calls := [r.call], outcome := r.result.map some }

/-- MessageRouter.handleVoiceMessage: react 🎧 and run the multimodal engine
path. -/
def handleVoiceMessage (env : Env) (db : Db) (msg : Message) : Dispatch :=
  let r := processVoiceMessage env.handlers db msg.sender env.voiceFirstResponse env.loopModel
  { db := r.db, reactions := ["🎧"], calls := [r.call], outcome := r.result.map some }

/-- Association-list lookup for the router's per-sender `Map`s. -/
def mapLookup (m : List (String × Nat)) (k : String) : Option Nat :=
  (m.find? (fun p => p.1 == k)).map (fun p => p.2)

/-- Association-list `Map.set`: replace the key's entry or append it. -/
def mapSet (m : List (String × Nat)) (k : String) (v : Nat) : List (String × Nat) :=
  if m.any (fun p => p.1 == k) then m.map (fun p => if p.1 == k then (k, v) else p)
  else m ++ [(k, v)]

/-- The router's 10-minute inactivity threshold, in milliseconds. -/
def CONTEXT_TIMEOUT_MS : Nat := 10 * 60 * 1000

/-- The MessageRouter's mutable state plus the observable outbound effects:
the in-flight sender set (`processingQueue` keys), the per-sender
last-message times, the shared conversation store, and the accumulated
sends, reactions and engine invocations. -/
structure RouterState where
  processing : List String
  lastMessageTime : List (String × Nat)
  db : Db
  sent : List (String × String)
  reactions : List String
  calls : List GenCall
deriving DecidableEq

/-- MessageRouter.routeMessage at time `now`: clear the sender's history
after 10 minutes of inactivity (the JS guard `lastTime && (now - lastTime) >
CONTEXT_TIMEOUT_MS` is truthy only for a nonzero stored time), record the
message time, drop the message if the sender is already in flight, otherwise
dispatch by classification (command / voice / text / ignore), send the
response or a classified error message, and finally remove the sender from
the in-flight set. -/
def routeMessage (env : Env) (st : RouterState) (msg : Message) (now : Nat) : RouterState :=
  let st1 :=
    match mapLookup st.lastMessageTime msg.sender with
    | some lastTime =>
      if lastTime ≠ 0 ∧ now - lastTime > CONTEXT_TIMEOUT_MS then
        { st with db := clearChatHistory st.db msg.sender }
      else st
    | none => st
  let st2 := { st1 with lastMessageTime := mapSet st1.lastMessageTime msg.sender now }
  if st2.processing.contains msg.sender then st2
  else
    let st3 := { st2 with processing := msg.sender :: st2.processing }
    let d :=
      if msg.body.startsWith "/" then handleCommand env st3.db msg
      else if msg.hasMedia && (msg.kind == "ptt" || msg.kind == "audio") && msg.media.isSome then
        handleVoiceMessage env st3.db msg
      else if jsTrim msg.body != "" then handleTextMessage env st3.db msg
      else { db := st3.db, reactions := [], calls := [], outcome := Except.ok none }
    let sends :=
      match d.outcome with
      | Except.ok none => []
      | Except.ok (some response) => if response != "" then [(msg.chat, response)] else []
      | Except.error e =>
        [(msg.chat, if isQuotaError e then quotaErrorMessage else genericErrorMessage)]
    { st3 with
      db := d.db,
      sent := st3.sent ++ sends,
      reactions := st3.reactions ++ d.reactions,
      calls := st3.calls ++ d.calls,
      processing := st3.processing.filter (fun s => s != msg.sender) }

/-- Effects of one firing of a scheduled prompt. -/
structure SchedResult where
  db : Db
  sent : List (String × String)
  call : Option GenCall

/-- The body of SchedulerManager._scheduleTask's cron callback: skip unless a
group id is configured and WhatsApp is ready; otherwise run the engine for
the fixed sender 'system_scheduler' with `keepHistory: false` and forward a
non-blank response to the group (an engine error is caught and logged). -/
def scheduledTaskFire (handlers : Handlers) (groupId : String) (waReady : Bool)
    (db : Db) (promptText : String) (firstResponse : Except String ModelResponse)
    (loopModel : LoopModel) : SchedResult :=
  if groupId == "" then { db := db, sent := [], call := none }
  else if !waReady then { db := db, sent := [], call := none }
  else
    let r := processMessage handlers db "system_scheduler" promptText false
      firstResponse loopModel
    match r.result with
    | Except.ok response =>
      { db := r.db,
        sent := if jsTrim response != "" then [(groupId, response)] else [],
        call := some r.call }
    | Except.error _ => { db := r.db, sent := [], call := some r.call }

/-- A Home-Assistant device mapping row (`{entity_id, nickname, location}`;
a NULL location is the empty string, which is falsy like in JS). -/
structure Mapping where
  entity_id : String
  nickname : String
  location : String
deriving DecidableEq

/-- The turn-off alternatives of findActionAndEntity's `isOff` regex. -/
def offPatterns : List String :=
  ["כבה", "תכבה", "סגור", "כבי", "להכבות", "לכבות", "תיכבה"]

/-- The turn-on alternatives of findActionAndEntity's `isOn` regex. -/
def onPatterns : List String :=
  ["דל", "תדליק", "פתח", "דליקי", "להדליק", "תדליקי", "פתיחה"]

/-- Stable insertion of a candidate into a list already sorted by descending
nickname length (the earlier element stays first on ties), modelling the
stable JS `sort((a, b) => b.nickname.length - a.nickname.length)`. -/
def insertByLen (a : Mapping) : List Mapping → List Mapping
  | [] => [a]
  | b :: t =>
    if b.nickname.length ≤ a.nickname.length then a :: b :: t
    else b :: insertByLen a t

/-- Stable sort by descending nickname length. -/
def sortCandidates : List Mapping → List Mapping
  | [] => []
  | a :: t => insertByLen a (sortCandidates t)

/-- TasksManager's findActionAndEntity: locations mentioned in the text
(deduplicated, truthy), the on/off/toggle action, candidates whose nickname
occurs in the lower-cased text, narrowing to mentioned locations when
possible, and the longest nickname winning. -/
def findActionAndEntity (text : String) (mappings : List Mapping) : Option (String × String) :=
  if text == "" then none
  else
    let lowerText := jsToLower text
    let locs := mappings.map (fun m => m.location)
    let mentionedLocations :=
      (locs.enum.filter (fun p =>
        p.2 != "" && locs.indexOf p.2 == p.1 && strIncludes lowerText (jsToLower p.2))).map
        (fun p => p.2)
    let isOff := offPatterns.any (fun pat => strIncludes lowerText pat)
    let isOn := onPatterns.any (fun pat => strIncludes lowerText pat)
    let action := if isOff then "turn_off" else if isOn then "turn_on" else "toggle"
    let candidates := mappings.filter (fun m => strIncludes lowerText (jsToLower m.nickname))
    if candidates.isEmpty then none
    else
      let candidates2 :=
        if !mentionedLocations.isEmpty then
          let locationMatches := candidates.filter
            (fun c => c.location != "" && mentionedLocations.contains c.location)
          if !locationMatches.isEmpty then locationMatches else candidates
        else candidates
      match sortCandidates candidates2 with
      | [] => none
      | c :: _ => some (c.entity_id, action)

/-- Specification-side restatement of the coalescing rule on an already
stripped history, in the amended claim's words: two adjacent entries of the
same role become one entry whose text is the two texts joined by a newline;
entries of different roles are kept. -/
def coalesceSpec : List HistEntry → List HistEntry
  | [] => []
  | [a] => [a]
  | a :: b :: rest =>
    if a.role = b.role then
      coalesceSpec ({ role := a.role, text := a.text ++ "\n" ++ b.text } :: rest)
    else a :: coalesceSpec (b :: rest)
termination_by l => l.length

/-- An empty tool registry, for concrete instances. -/
def handlersNone : Handlers := fun _ => none

/-- A model response with no tool calls, for concrete instances. -/
def plainResponse : ModelResponse := { text := "all good", functionCalls := [] }

/-- A concrete routing environment whose model immediately answers with
plain text. -/
def trivialEnv : Env :=
  { statusText := "status text",
    firstResponse := Except.ok plainResponse,
    voiceFirstResponse := Except.ok plainResponse,
    loopModel := fun _ _ => Except.ok plainResponse,
    handlers := handlersNone }

/-- A router state in which sender 972555 is currently being processed, last
heard from at the (nonzero, hence truthy) time 5, with one persisted turn. -/
def inflightState : RouterState :=
  { processing := ["972555"],
    lastMessageTime := [("972555", 5)],
    db := { chat := [{ userId := "972555", role := "user", content := "hi" }], keywords := [] },
    sent := [], reactions := [], calls := [] }

/-- A second inbound text message from sender 972555. -/
def secondMessage : Message :=
  { sender := "972555", chat := "972555", body := "hello again", kind := "chat",
    hasMedia := false, media := none }

/-- A response that requests one tool call, for the loop-bound instance. -/
def respWithCall : ModelResponse :=
  { text := "", functionCalls := [{ name := "t", args := "a" }] }

/-- A model that requests a tool call on every loop iteration. -/
def loopModelAlways : LoopModel := fun _ _ => Except.ok respWithCall

/-- Persisted rows exercising both the leading-model strip and a same-role
merge: model, user, user, model. -/
def mergeMsgs : List DbMsg :=
  [{ role := "model", content := "x" }, { role := "user", content := "a" },
   { role := "user", content := "b" }, { role := "model", content := "c" }]

/-- A registry whose only tool, get_weather, always throws "boom". -/
def throwingHandlers : Handlers := fun n =>
  if n == "get_weather" then some (fun _ => HandlerBehavior.throws "boom") else none

/-- A response requesting the throwing tool and an unregistered one. -/
def twoCallResponse : ModelResponse :=
  { text := "", functionCalls := [{ name := "get_weather", args := "x" },
                                  { name := "bogus", args := "y" }] }

/-- A final plain-text response the model settles on after tool feedback. -/
def doneResponse : ModelResponse := { text := "done", functionCalls := [] }

/-- A loop model that stops requesting tools after the first feedback. -/
def loopModelDone : LoopModel := fun _ _ => Except.ok doneResponse

/-- A store holding prior turns for the scheduler's fixed sender identity. -/
def schedulerDb : Db :=
  { chat := [{ userId := "system_scheduler", role := "user", content := "שלום" },
             { userId := "system_scheduler", role := "model", content := "היי" }],
    keywords := [] }

/-- A loop model answering the scheduled prompt with a fixed text. -/
def schedulerEnvResponse : Except String ModelResponse :=
  Except.ok { text := "בוקר טוב", functionCalls := [] }

/-- A store with prior turns for user u, for the empty-history instance. -/
def priorTurnsDb : Db :=
  { chat := [{ userId := "u", role := "user", content := "a" },
             { userId := "u", role := "model", content := "b" }],
    keywords := [] }

/-- A store whose last persisted turn for u already has role user. -/
def userTailDb : Db :=
  { chat := [{ userId := "u", role := "user", content := "a" }], keywords := [] }

/-- The two device mappings of the entity-resolution scenario. -/
def scenarioMappings : List Mapping :=
  [{ entity_id := "light.a", nickname := "מנורה", location := "סלון" },
   { entity_id := "light.b", nickname := "מנורה גדולה", location := "סלון" }]

/-- The Hebrew request of the entity-resolution scenario: turn on the big
lamp in the living room. -/
def scenarioText : String := "תדליקי את המנורה הגדולה בסלון"

/-- A store with the single enabled static keyword rule of the round-trip
scenario. -/
def keywordDb : Db :=
  { chat := [],
    keywords := [{ keyword := "status,סטטוס", response := "ok", kind := "static",
                   enabled := true }] }

/-- A routing environment whose engine answers "ai-reply", to distinguish an
engine answer from the static payload. -/
def keywordEnv : Env :=
  { statusText := "status text",
    firstResponse := Except.ok { text := "ai-reply", functionCalls := [] },
    voiceFirstResponse := Except.ok { text := "ai-reply", functionCalls := [] },
    loopModel := fun _ _ => Except.ok { text := "ai-reply", functionCalls := [] },
    handlers := handlersNone }

/-- An inbound text message with the given body. -/
def mkTextMsg (body : String) : Message :=
  { sender := "u", chat := "c", body := body, kind := "chat", hasMedia := false,
    media := none }

/-- The empty pattern occurs in every character list. -/
theorem charsInfixOf_nil (l : List Char) : charsInfixOf [] l = true := by
  cases l with
  | nil => rfl
  | cons a t => simp [charsInfixOf, charsPrefixOf]

/-- JS `s.includes("")` is true for every string. -/
theorem strIncludes_empty (s : String) : strIncludes s "" = true :=
  charsInfixOf_nil s.data

/-- The corrupted `devicePatterns` list contains the empty string, so the
classifier accepts every input: every text message is device-related. -/
theorem isDeviceRelatedMessage_true (text : String) : isDeviceRelatedMessage text = true := by
  have hmem : ("" : String) ∈ devicePatterns := by decide
  simp only [isDeviceRelatedMessage, List.any_eq_true]
  exact ⟨"", hmem, strIncludes_empty _⟩

/-- The model invocation recorded by processMessage, as a function of the
inputs. -/
theorem processMessage_call (handlers : Handlers) (db : Db) (userId text : String)
    (keepHistory : Bool) (firstResponse : Except String ModelResponse)
    (loopModel : LoopModel) :
    (processMessage handlers db userId text keepHistory firstResponse loopModel).call =
      { history := if keepHistory || !isDeviceRelatedMessage text
                   then buildHistory db userId else [],
        temperature := lowTemperature, message := text } := rfl

/-- Behaviour of the tool loop body at every fuel level: the number of
feedback batches is bounded by the fuel, an empty trace returns the current
response unchanged, and otherwise the returned value is exactly what the
model produced at the last recorded iteration. -/
theorem handleFunctionCallsGo_spec (handlers : Handlers) (loopModel : LoopModel)
    (fuel : Nat) :
    ∀ (current : ModelResponse) (iterations : Nat),
      (handleFunctionCallsGo handlers loopModel current iterations fuel).2.length ≤ fuel ∧
      ((handleFunctionCallsGo handlers loopModel current iterations fuel).2 = [] →
        (handleFunctionCallsGo handlers loopModel current iterations fuel).1 =
          Except.ok current) ∧
      (∀ fb, (handleFunctionCallsGo handlers loopModel current iterations fuel).2.getLast? =
          some fb →
        (handleFunctionCallsGo handlers loopModel current iterations fuel).1 =
          loopModel
            (iterations +
              (handleFunctionCallsGo handlers loopModel current iterations fuel).2.length - 1)
            fb) := by
  induction fuel with
  | zero =>
    intro current iterations
    exact ⟨by simp [handleFunctionCallsGo], fun _ => rfl, by simp [handleFunctionCallsGo]⟩
  | succ n ih =>
    intro current iterations
    by_cases hempty : current.functionCalls.isEmpty
    · refine ⟨?_, ?_, ?_⟩ <;> simp [handleFunctionCallsGo, hempty]
    · simp only [handleFunctionCallsGo, hempty, Bool.false_eq_true, if_false]
      cases hm : loopModel iterations (current.functionCalls.map
          (fun fc => { name := fc.name, response := executeCall handlers fc })) with
      | error e =>
        dsimp only
        refine ⟨by simp, by simp, fun fb hfb => ?_⟩
        simp only [List.getLast?_singleton, Option.some.injEq] at hfb
        subst hfb
        simp [hm]
      | ok next =>
        obtain ⟨ih1, ih2, ih3⟩ := ih next (iterations + 1)
        dsimp only
        refine ⟨by simpa using Nat.succ_le_succ ih1, by simp, fun fb hfb => ?_⟩
        cases hrest : (handleFunctionCallsGo handlers loopModel next (iterations + 1) n).2 with
        | nil =>
          have h1 := ih2 hrest
          rw [hrest] at hfb
          simp only [List.getLast?_singleton, Option.some.injEq] at hfb
          subst hfb
          simp [hrest, h1, hm]
        | cons x xs =>
          have hfb2 : (handleFunctionCallsGo handlers loopModel next
              (iterations + 1) n).2.getLast? = some fb := by
            rw [hrest]
            rw [hrest] at hfb
            simpa [List.getLast?_cons_cons] using hfb
          have h3 := ih3 fb hfb2
          have hidx : iterations + 1 +
              (handleFunctionCallsGo handlers loopModel next (iterations + 1) n).2.length - 1 =
              iterations +
                ((current.functionCalls.map
                  (fun fc => { name := fc.name, response := executeCall handlers fc })) ::
                  (handleFunctionCallsGo handlers loopModel next (iterations + 1) n).2).length - 1 := by
            simp only [List.length_cons]
            omega
          rw [h3, hidx, hrest]

/-- The cleanup loop body never produces an empty accumulator. -/
theorem pushOrMerge_ne_nil (acc : List HistEntry) (msg : HistEntry) :
    pushOrMerge acc msg ≠ [] := by
  match acc with
  | [] => simp [pushOrMerge]
  | [last] =>
    by_cases h : last.role ≠ msg.role <;> simp [pushOrMerge, h]
  | a :: b :: t => simp [pushOrMerge]

/-- The cleanup loop body only touches the accumulator's last entry: a
nonempty suffix absorbs the step. -/
theorem pushOrMerge_append (pre acc : List HistEntry) (msg : HistEntry)
    (h : acc ≠ []) : pushOrMerge (pre ++ acc) msg = pre ++ pushOrMerge acc msg := by
  induction pre with
  | nil => rfl
  | cons p ps ih =>
    cases hpa : ps ++ acc with
    | nil =>
      rcases List.append_eq_nil.mp hpa with ⟨-, h2⟩
      exact absurd h2 h
    | cons r t =>
      show pushOrMerge (p :: (ps ++ acc)) msg = p :: (ps ++ pushOrMerge acc msg)
      rw [hpa]
      show p :: pushOrMerge (r :: t) msg = p :: (ps ++ pushOrMerge acc msg)
      rw [← hpa, ih]

/-- Folding the cleanup loop from an accumulator with a nonempty suffix
keeps the prefix untouched. -/
theorem foldl_pushOrMerge_append (l : List HistEntry) :
    ∀ (pre acc : List HistEntry), acc ≠ [] →
      l.foldl pushOrMerge (pre ++ acc) = pre ++ l.foldl pushOrMerge acc := by
  induction l with
  | nil => intro pre acc _; rfl
  | cons m t ih =>
    intro pre acc h
    show t.foldl pushOrMerge (pushOrMerge (pre ++ acc) m) = pre ++ t.foldl pushOrMerge (pushOrMerge acc m)
    rw [pushOrMerge_append pre acc m h]
    exact ih pre (pushOrMerge acc m) (pushOrMerge_ne_nil acc m)

/-- The code's left fold agrees with the specification-side recursion once
started from a singleton accumulator. -/
theorem foldl_pushOrMerge_cons (l : List HistEntry) :
    ∀ a : HistEntry, l.foldl pushOrMerge [a] = coalesceSpec (a :: l) := by
  induction l with
  | nil => intro a; simp [coalesceSpec]
  | cons b t ih =>
    intro a
    show t.foldl pushOrMerge (pushOrMerge [a] b) = coalesceSpec (a :: b :: t)
    by_cases hr : a.role = b.role
    · have hpm : pushOrMerge [a] b = [{ role := a.role, text := a.text ++ "\n" ++ b.text }] := by
        simp [pushOrMerge, hr]
      rw [hpm, ih, coalesceSpec]
      simp [hr]
    · have hpm : pushOrMerge [a] b = [a] ++ [b] := by
        simp [pushOrMerge, hr]
      rw [hpm, foldl_pushOrMerge_append t [a] [b] (by simp), ih, coalesceSpec]
      simp [hr]

/-- GeminiManager's cleanup loop is exactly the coalescing recursion. -/
theorem cleanedHistory_eq_coalesceSpec (l : List HistEntry) :
    cleanedHistory l = coalesceSpec l := by
  cases l with
  | nil => simp [cleanedHistory, coalesceSpec]
  | cons a t =>
    show t.foldl pushOrMerge (pushOrMerge [] a) = coalesceSpec (a :: t)
    exact foldl_pushOrMerge_cons t a

/-- Coalescing preserves the head's role. -/
theorem coalesceSpec_head_role (n : Nat) :
    ∀ (l : List HistEntry) (a : HistEntry) (e : HistEntry), l.length ≤ n →
      (coalesceSpec (a :: l)).head? = some e → e.role = a.role := by
  induction n with
  | zero =>
    intro l a e hlen hhead
    interval_cases hl : l.length
    have hnil : l = [] := List.length_eq_zero.mp hl
    subst hnil
    simp [coalesceSpec] at hhead
    rw [← hhead]
  | succ n ih =>
    intro l a e hlen hhead
    cases l with
    | nil =>
      simp [coalesceSpec] at hhead
      rw [← hhead]
    | cons b t =>
      by_cases hr : a.role = b.role
      · rw [coalesceSpec, if_pos hr] at hhead
        exact ih t { role := a.role, text := a.text ++ "\n" ++ b.text } e
          (by simpa using Nat.le_of_succ_le_succ hlen) hhead
      · rw [coalesceSpec, if_neg hr] at hhead
        simp at hhead
        rw [← hhead]

/-- Coalescing yields no two adjacent entries of the same role. -/
theorem coalesceSpec_chain (n : Nat) :
    ∀ (l : List HistEntry), l.length ≤ n →
      (coalesceSpec l).Chain' (fun a b => a.role ≠ b.role) := by
  induction n with
  | zero =>
    intro l hlen
    have hnil : l = [] := List.length_eq_zero.mp (Nat.le_zero.mp hlen)
    subst hnil
    simp [coalesceSpec]
  | succ n ih =>
    intro l hlen
    cases l with
    | nil => simp [coalesceSpec]
    | cons a t =>
      cases t with
      | nil => simp [coalesceSpec]
      | cons b r =>
        by_cases hr : a.role = b.role
        · rw [coalesceSpec, if_pos hr]
          exact ih _ (by simpa using Nat.le_of_succ_le_succ hlen)
        · rw [coalesceSpec, if_neg hr]
          rw [List.chain'_cons']
          refine ⟨fun e he => ?_, ih _ (by simpa using Nat.le_of_succ_le_succ hlen)⟩
          have := coalesceSpec_head_role r.length r b e (le_refl _) he
          rw [this]
          exact hr

/-- The first element surviving dropWhile does not satisfy the predicate. -/
theorem dropWhile_head_false (p : HistEntry → Bool) :
    ∀ (l : List HistEntry) (x : HistEntry) (t : List HistEntry),
      l.dropWhile p = x :: t → p x = false := by
  intro l
  induction l with
  | nil => intro x t h; simp [List.dropWhile] at h
  | cons a as ih =>
    intro x t h
    rw [List.dropWhile_cons] at h
    by_cases hp : p a = true
    · rw [if_pos hp] at h
      exact ih x t h
    · rw [if_neg hp] at h
      rw [(List.cons.injEq _ _ _ _).mp h |>.1] at hp
      simpa using hp

/-- Unfolding of one loop iteration when the current response has calls. -/
theorem handleFunctionCallsGo_step (handlers : Handlers) (loopModel : LoopModel)
    (current : ModelResponse) (iterations fuel : Nat)
    (hemp : current.functionCalls.isEmpty = false) :
    handleFunctionCallsGo handlers loopModel current iterations (fuel + 1) =
      (match loopModel iterations (current.functionCalls.map
          (fun fc => { name := fc.name, response := executeCall handlers fc })) with
       | Except.error e =>
         (Except.error e, [current.functionCalls.map
           (fun fc => { name := fc.name, response := executeCall handlers fc })])
       | Except.ok next =>
         ((handleFunctionCallsGo handlers loopModel next (iterations + 1) fuel).1,
          (current.functionCalls.map
            (fun fc => { name := fc.name, response := executeCall handlers fc })) ::
            (handleFunctionCallsGo handlers loopModel next (iterations + 1) fuel).2)) := by
  simp [handleFunctionCallsGo, hemp]

/-- C2: for every tool registry, every stream of model responses — including
one that requests tools on every response — and every initial response, the
tool loop of _handleFunctionCalls performs at most `maxIterations = 5`
iterations (the trace records one feedback batch per iteration) and
terminates; if it never iterated it returns the initial response unchanged,
and otherwise it returns exactly what the model produced at the last
iteration (the answer to the last feedback batch sent). -/
theorem toolLoop_bounded (handlers : Handlers) (loopModel : LoopModel)
    (resp : ModelResponse) :
    (handleFunctionCalls handlers loopModel resp).2.length ≤ maxIterations ∧
    maxIterations = 5 ∧
    ((handleFunctionCalls handlers loopModel resp).2 = [] →
      (handleFunctionCalls handlers loopModel resp).1 = Except.ok resp) ∧
    (∀ fb, (handleFunctionCalls handlers loopModel resp).2.getLast? = some fb →
      (handleFunctionCalls handlers loopModel resp).1 =
        loopModel ((handleFunctionCalls handlers loopModel resp).2.length - 1) fb) := by
  obtain ⟨h1, h2, h3⟩ := handleFunctionCallsGo_spec handlers loopModel maxIterations resp 0
  exact ⟨h1, rfl, h2, fun fb hfb => by simpa using h3 fb hfb⟩

/-- Witness for C2 at a model that always requests a tool call: the loop
runs exactly 5 iterations and returns the model's last response. -/
theorem toolLoop_bounded_witness :
    (handleFunctionCalls handlersNone loopModelAlways respWithCall).2.length ≤ maxIterations ∧
    (handleFunctionCalls handlersNone loopModelAlways respWithCall).1 =
      loopModelAlways
        ((handleFunctionCalls handlersNone loopModelAlways respWithCall).2.length - 1)
        [{ name := "t", response := FnResult.errorObj ("Unknown function: " ++ "t") }] :=
  ⟨(toolLoop_bounded handlersNone loopModelAlways respWithCall).1,
   (toolLoop_bounded handlersNone loopModelAlways respWithCall).2.2.2 _ (by decide)⟩

/-- C3 (amended): the history array built by _buildHistory never starts with
a model-role entry, never contains two adjacent entries of the same role,
and equals the coalescing recursion in which two adjacent same-role turns
become one turn whose text is the two texts joined by a newline. -/
theorem buildHistory_alternation (messages : List DbMsg) :
    (∀ e, (buildHistoryCore messages).head? = some e → e.role = Role.user) ∧
    (buildHistoryCore messages).Chain' (fun a b => a.role ≠ b.role) ∧
    buildHistoryCore messages =
      coalesceSpec (stripLeadingModel (messages.map toGeminiEntry)) := by
  have heq : buildHistoryCore messages =
      coalesceSpec (stripLeadingModel (messages.map toGeminiEntry)) :=
    cleanedHistory_eq_coalesceSpec _
  refine ⟨?_, ?_, heq⟩
  · intro e he
    rw [heq] at he
    cases hs : stripLeadingModel (messages.map toGeminiEntry) with
    | nil => rw [hs] at he; simp [coalesceSpec] at he
    | cons x t =>
      rw [hs] at he
      have hrole := coalesceSpec_head_role t.length t x e (le_refl _) he
      have hpx : (x.role == Role.model) = false := dropWhile_head_false _ _ x t hs
      rw [hrole]
      cases hx : x.role with
      | user => rfl
      | model => rw [hx] at hpx; simp at hpx
  · rw [heq]
    exact coalesceSpec_chain _ _ (le_refl _)

/-- Counterexample for C3 as stated: two merged user turns "a" and "b" yield
the text joined by a newline, not the plain concatenation "ab". -/
theorem buildHistory_concat_cx :
    buildHistoryCore [{ role := "user", content := "a" }, { role := "user", content := "b" }] =
      [{ role := Role.user, text := "a\nb" }] ∧
    buildHistoryCore [{ role := "user", content := "a" }, { role := "user", content := "b" }] ≠
      [{ role := Role.user, text := "a" ++ "b" }] :=
  ⟨by decide, by decide⟩

/-- Witness for C3 on a concrete log (model, user "a", user "b", model "c"):
the built history starts with the coalesced user turn. -/
theorem buildHistory_alternation_witness :
    (buildHistoryCore mergeMsgs).head? = some { role := Role.user, text := "a\nb" } ∧
    ({ role := Role.user, text := "a\nb" } : HistEntry).role = Role.user :=
  ⟨by decide, (buildHistory_alternation mergeMsgs).1 _ (by decide)⟩

/-- C4: inside the loop, a tool whose handler throws message m contributes
the structured result `{error: m}` to the batch fed back to the model, a
name missing from the registry contributes `{error: "Unknown function:
name"}`, the loop does not abort, and when the model then stops requesting
tools the engine returns its final response. -/
theorem toolErrors_fed_back (handlers : Handlers) (loopModel : LoopModel)
    (resp : ModelResponse) (hne : resp.functionCalls ≠ []) :
    (handleFunctionCalls handlers loopModel resp).2.head? =
      some (resp.functionCalls.map
        (fun fc => { name := fc.name, response := executeCall handlers fc })) ∧
    (∀ (fc : FunctionCall) (hd : String → HandlerBehavior) (m : String),
      handlers fc.name = some hd → hd fc.args = HandlerBehavior.throws m →
      executeCall handlers fc = FnResult.errorObj m) ∧
    (∀ fc : FunctionCall, handlers fc.name = none →
      executeCall handlers fc = FnResult.errorObj ("Unknown function: " ++ fc.name)) ∧
    (∀ next : ModelResponse,
      loopModel 0 (resp.functionCalls.map
        (fun fc => { name := fc.name, response := executeCall handlers fc })) =
        Except.ok next →
      next.functionCalls = [] →
      (handleFunctionCalls handlers loopModel resp).1 = Except.ok next) := by
  have hemp : resp.functionCalls.isEmpty = false := by
    cases hfc : resp.functionCalls with
    | nil => exact absurd hfc hne
    | cons a t => rfl
  have hstep := handleFunctionCallsGo_step handlers loopModel resp 0 4 hemp
  refine ⟨?_, ?_, ?_, ?_⟩
  · show (handleFunctionCallsGo handlers loopModel resp 0 (4 + 1)).2.head? = _
    rw [hstep]
    cases hm : loopModel 0 (resp.functionCalls.map
        (fun fc => { name := fc.name, response := executeCall handlers fc })) <;> rfl
  · intro fc hd m hsome hthrow
    simp [executeCall, hsome, hthrow]
  · intro fc hnone
    simp [executeCall, hnone]
  · intro next hnext hstop
    have hrest : handleFunctionCallsGo handlers loopModel next 1 4 = (Except.ok next, []) := by
      show handleFunctionCallsGo handlers loopModel next 1 (3 + 1) = _
      have : next.functionCalls.isEmpty = true := by rw [hstop]; rfl
      simp [handleFunctionCallsGo, this]
    show (handleFunctionCallsGo handlers loopModel resp 0 (4 + 1)).1 = _
    rw [hstep, hnext]
    simp [hrest]

/-- Witness for C4: get_weather throws "boom" and bogus is unregistered; the
feedback batch carries both error objects and the engine still ends with the
model's final text. -/
theorem toolErrors_fed_back_witness :
    (handleFunctionCalls throwingHandlers loopModelDone twoCallResponse).2.head? =
      some [{ name := "get_weather", response := FnResult.errorObj "boom" },
            { name := "bogus", response := FnResult.errorObj ("Unknown function: " ++ "bogus") }] ∧
    (handleFunctionCalls throwingHandlers loopModelDone twoCallResponse).1 =
      Except.ok doneResponse := by
  constructor
  · have h := (toolErrors_fed_back throwingHandlers loopModelDone twoCallResponse (by decide)).1
    rw [h]
    decide
  · exact (toolErrors_fed_back throwingHandlers loopModelDone twoCallResponse (by decide)).2.2.2
      doneResponse rfl rfl

/-- C5: whenever the broadcast group is configured and WhatsApp is ready,
the scheduler's firing invokes the engine for sender system_scheduler with
`keepHistory = false` and the model is opened on an empty history for every
prompt text and every store contents (every text is classified
device-related, because the corrupted pattern list contains the empty
string, and `keepHistory = false` then forces the history empty); a
successfully produced non-blank response is forwarded to the group. -/
theorem scheduler_fresh_context (handlers : Handlers) (groupId : String) (waReady : Bool)
    (db : Db) (promptText : String) (firstResponse : Except String ModelResponse)
    (loopModel : LoopModel) (h1 : groupId ≠ "") (h2 : waReady = true) :
    (scheduledTaskFire handlers groupId waReady db promptText firstResponse loopModel).call =
      some { history := [], temperature := lowTemperature, message := promptText } ∧
    (∀ response,
      (processMessage handlers db "system_scheduler" promptText false
        firstResponse loopModel).result = Except.ok response →
      jsTrim response ≠ "" →
      (scheduledTaskFire handlers groupId waReady db promptText firstResponse loopModel).sent =
        [(groupId, response)]) := by
  subst h2
  have hgid : (groupId == "") = false := beq_eq_false_iff_ne.mpr h1
  have hcall : (processMessage handlers db "system_scheduler" promptText false
      firstResponse loopModel).call =
      { history := [], temperature := lowTemperature, message := promptText } := by
    rw [processMessage_call]
    simp [isDeviceRelatedMessage_true]
  constructor
  · cases hres : (processMessage handlers db "system_scheduler" promptText false
        firstResponse loopModel).result with
    | ok response => simp [scheduledTaskFire, hgid, hres, hcall]
    | error e => simp [scheduledTaskFire, hgid, hres, hcall]
  · intro response hres htrim
    have htr : (jsTrim response == "") = false := beq_eq_false_iff_ne.mpr htrim
    simp [scheduledTaskFire, hgid, hres, htr, htrim]

/-- Witness for C5: a firing with prior persisted scheduler turns still
opens the model on an empty history and forwards the produced text. -/
theorem scheduler_fresh_context_witness :
    (scheduledTaskFire handlersNone "grp" true schedulerDb "מה התוכניות להיום"
      schedulerEnvResponse (fun _ _ => Except.ok plainResponse)).call =
      some { history := [], temperature := lowTemperature, message := "מה התוכניות להיום" } ∧
    (scheduledTaskFire handlersNone "grp" true schedulerDb "מה התוכניות להיום"
      schedulerEnvResponse (fun _ _ => Except.ok plainResponse)).sent =
      [("grp", "בוקר טוב")] ∧
    schedulerDb.chat ≠ [] := by
  refine ⟨(scheduler_fresh_context handlersNone "grp" true schedulerDb "מה התוכניות להיום"
      schedulerEnvResponse (fun _ _ => Except.ok plainResponse) (by decide) rfl).1, ?_, by decide⟩
  exact (scheduler_fresh_context handlersNone "grp" true schedulerDb "מה התוכניות להיום"
      schedulerEnvResponse (fun _ _ => Except.ok plainResponse) (by decide) rfl).2
    "בוקר טוב" (by decide) (by decide)

/-- C6: a device-related text with `keepHistory` unset makes processMessage
open the model on an empty history array, whatever is persisted. -/
theorem device_related_empty_history (handlers : Handlers) (db : Db) (userId text : String)
    (firstResponse : Except String ModelResponse) (loopModel : LoopModel)
    (h : isDeviceRelatedMessage text = true) :
    (processMessage handlers db userId text false firstResponse loopModel).call.history = [] := by
  rw [processMessage_call, h]
  simp

/-- Witness for C6 at "turn on the light" with prior persisted turns. -/
theorem device_related_empty_history_witness :
    (processMessage handlersNone priorTurnsDb "u" "turn on the light" false
      (Except.ok plainResponse) (fun _ _ => Except.ok plainResponse)).call.history = [] ∧
    priorTurnsDb.chat ≠ [] :=
  ⟨device_related_empty_history handlersNone priorTurnsDb "u" "turn on the light"
      (Except.ok plainResponse) (fun _ _ => Except.ok plainResponse) (by decide),
   by decide⟩

/-- C9: processMessage opens the chat at the fixed low temperature 0.1 for
every text input, and every text input is classified device-related (the
corrupted pattern list contains the empty string), so the claim's
device-related case applies universally and its non-device case is vacuous:
no input ever receives a higher temperature setting. -/
theorem processMessage_low_temperature (handlers : Handlers) (db : Db) (userId text : String)
    (keepHistory : Bool) (firstResponse : Except String ModelResponse)
    (loopModel : LoopModel) :
    (processMessage handlers db userId text keepHistory firstResponse loopModel).call.temperature =
      lowTemperature ∧
    isDeviceRelatedMessage text = true :=
  ⟨rfl, isDeviceRelatedMessage_true text⟩

/-- C10: when the model invocation fails, processMessage rethrows and the
store holds exactly one new row for the sender — the user turn appended
before the call — and no assistant turn. -/
theorem failed_model_call_keeps_user_turn (handlers : Handlers) (db : Db)
    (userId text : String) (keepHistory : Bool)
    (firstResponse : Except String ModelResponse) (loopModel : LoopModel) (e : String)
    (h : (processMessage handlers db userId text keepHistory firstResponse loopModel).result =
      Except.error e) :
    (processMessage handlers db userId text keepHistory firstResponse loopModel).db =
      addChatMessage db userId "user" text ∧
    (addChatMessage db userId "user" text).chat =
      db.chat ++ [{ userId := userId, role := "user", content := text }] := by
  refine ⟨?_, rfl⟩
  cases hfr : firstResponse with
  | error e2 => simp [processMessage, hfr]
  | ok response =>
    cases hp : (handleFunctionCalls handlers loopModel response).1 with
    | error e2 => simp [processMessage, hfr, hp]
    | ok finalResponse =>
      have hok : (processMessage handlers db userId text keepHistory firstResponse
          loopModel).result = Except.ok finalResponse.text := by
        simp [processMessage, hfr, hp]
      rw [hok] at h
      exact absurd h (by simp)

/-- Witness for C10: the failed call leaves the store with two consecutive
user-role rows for the sender. -/
theorem failed_model_call_keeps_user_turn_witness :
    (processMessage handlersNone userTailDb "u" "b" false (Except.error "boom")
      (fun _ _ => Except.ok plainResponse)).db = addChatMessage userTailDb "u" "user" "b" ∧
    (addChatMessage userTailDb "u" "user" "b").chat =
      [{ userId := "u", role := "user", content := "a" },
       { userId := "u", role := "user", content := "b" }] :=
  ⟨(failed_model_call_keeps_user_turn handlersNone userTailDb "u" "b" false
      (Except.error "boom") (fun _ _ => Except.ok plainResponse) "boom" (by decide)).1,
   by decide⟩

/-- C1 (amended): while a sender is in flight, a second inbound message from
that sender is dropped — nothing is sent, no reaction or engine call is
made, nothing is queued and the in-flight set is unchanged — but before the
drop check the router updates the sender's last-activity time to `now`, and
clears the sender's persisted history when the stored last-activity time is
nonzero (truthy in JS) and the inactivity timeout had elapsed since the
previous message. -/
theorem routeMessage_drop_effects (env : Env) (st : RouterState) (msg : Message) (now : Nat)
    (h : st.processing.contains msg.sender = true) :
    (routeMessage env st msg now).processing = st.processing ∧
    (routeMessage env st msg now).sent = st.sent ∧
    (routeMessage env st msg now).reactions = st.reactions ∧
    (routeMessage env st msg now).calls = st.calls ∧
    (routeMessage env st msg now).lastMessageTime = mapSet st.lastMessageTime msg.sender now ∧
    (routeMessage env st msg now).db =
      (match mapLookup st.lastMessageTime msg.sender with
       | some lastTime =>
         if lastTime ≠ 0 ∧ now - lastTime > CONTEXT_TIMEOUT_MS then
           clearChatHistory st.db msg.sender
         else st.db
       | none => st.db) := by
  have hmem : msg.sender ∈ st.processing := by simpa using h
  cases hlk : mapLookup st.lastMessageTime msg.sender with
  | none => simp [routeMessage, hlk, h, hmem]
  | some lastTime =>
    by_cases ht : lastTime ≠ 0 ∧ now - lastTime > CONTEXT_TIMEOUT_MS
    · simp [routeMessage, hlk, ht, h, hmem]
    · simp [routeMessage, hlk, ht, h, hmem]

/-- Counterexample for C1 as stated: a dropped second message does change
router and conversation state — the last-activity entry is rewritten from
the truthy stored time 5 to the drop time and, the timeout having elapsed,
the persisted history is cleared — although nothing is sent and the
in-flight set is untouched. -/
theorem routeMessage_drop_state_changed_cx :
    (routeMessage trivialEnv inflightState secondMessage 700006).lastMessageTime ≠
      inflightState.lastMessageTime ∧
    (routeMessage trivialEnv inflightState secondMessage 700006).db ≠ inflightState.db ∧
    (routeMessage trivialEnv inflightState secondMessage 700006).processing =
      inflightState.processing ∧
    (routeMessage trivialEnv inflightState secondMessage 700006).sent = inflightState.sent :=
  ⟨by decide, by decide, by decide, by decide⟩

/-- Witness for C1 at the concrete in-flight state. -/
theorem routeMessage_drop_effects_witness :
    (routeMessage trivialEnv inflightState secondMessage 700006).processing =
      inflightState.processing ∧
    (routeMessage trivialEnv inflightState secondMessage 700006).sent = inflightState.sent ∧
    (routeMessage trivialEnv inflightState secondMessage 700006).reactions =
      inflightState.reactions ∧
    (routeMessage trivialEnv inflightState secondMessage 700006).calls = inflightState.calls ∧
    (routeMessage trivialEnv inflightState secondMessage 700006).lastMessageTime =
      mapSet inflightState.lastMessageTime secondMessage.sender 700006 ∧
    (routeMessage trivialEnv inflightState secondMessage 700006).db =
      (match mapLookup inflightState.lastMessageTime secondMessage.sender with
       | some lastTime =>
         if lastTime ≠ 0 ∧ 700006 - lastTime > CONTEXT_TIMEOUT_MS then
           clearChatHistory inflightState.db secondMessage.sender
         else inflightState.db
       | none => inflightState.db) :=
  routeMessage_drop_effects trivialEnv inflightState secondMessage 700006 (by decide)

/-- C7 (amended): on the scenario mappings, the request resolves to light.a
with action turn_on: the candidate filter keeps only mappings whose nickname
occurs verbatim in the text, and the long nickname does not occur in the
request (the definite article on the adjective breaks the phrase), so the
short-nickname mapping is the only candidate. -/
theorem findActionAndEntity_scenario :
    findActionAndEntity scenarioText scenarioMappings = some ("light.a", "turn_on") ∧
    strIncludes (jsToLower scenarioText) (jsToLower "מנורה גדולה") = false ∧
    strIncludes (jsToLower scenarioText) (jsToLower "מנורה") = true :=
  ⟨by decide, by decide, by decide⟩

/-- Counterexample for C7 as stated: the scenario does not resolve to
light.b. -/
theorem findActionAndEntity_scenario_cx :
    findActionAndEntity scenarioText scenarioMappings ≠ some ("light.b", "turn_on") := by
  decide

/-- C8 at the failing input: the static rule "status,סטטוס"/"ok" answers
both exact literals verbatim without any engine call, but the comparison is
case-sensitive — contradicting the function's own doc comment — so "STATUS"
finds no keyword and is routed to the Conversation Engine instead. -/
theorem keyword_case_sensitive_match :
    (handleTextMessage keywordEnv keywordDb (mkTextMsg "status")).outcome =
      Except.ok (some "ok") ∧
    (handleTextMessage keywordEnv keywordDb (mkTextMsg "status")).calls = [] ∧
    (handleTextMessage keywordEnv keywordDb (mkTextMsg "סטטוס")).outcome =
      Except.ok (some "ok") ∧
    (handleTextMessage keywordEnv keywordDb (mkTextMsg "סטטוס")).calls = [] ∧
    getKeywordByText keywordDb "STATUS" = none ∧
    (handleTextMessage keywordEnv keywordDb (mkTextMsg "STATUS")).outcome ≠
      Except.ok (some "ok") ∧
    (handleTextMessage keywordEnv keywordDb (mkTextMsg "STATUS")).calls ≠ [] :=
  ⟨by decide, by decide, by decide, by decide, by decide, by decide, by decide⟩

end Noga
